import Mathlib

/-!
Verification of the Loomi scrape-orchestration engine (`scraper_engine.py`).

The development shallowly embeds the components the claims refer to:

* `RateState` / `record_success` / `record_rate_limit` / `record_error` —
  the `AdaptiveRateLimiter` class (delays are modelled as rationals; the
  Python floats only ever go through `max`/`min` clamps and multiplication
  by the constants 0.9, 2 and 1.2, written here as `9/10`, `2`, `6/5`);
* `EnvCaps` / `browser_available` — the `EnvironmentProbe.browser_available`
  property (the probe's environment reads and the launch-and-close attempt
  are modelled as booleans; the second component of the result records
  whether a real launch attempt was performed);
* `requests_scrape_product` / `playwright_scrape_product` — the
  `scrape_product` methods of `RequestsStrategy` and `PlaywrightStrategy`,
  driven by one abstract network outcome per attempt, producing the list of
  extracted records together with the trace of rate-governor calls and a
  flag marking whether the post-extraction `wait()` call site fired;
* `MgrState` / `incremental_save` / `scrape_single_product` /
  `dispatchAll` — the `ScrapeManager._scrape_single_product` worker body,
  its `_incremental_save` checkpoint helper and the dispatch loop of
  `_run_with_strategy`, with the worker outcomes abstracted;
* `runLoopFrom` / `runOrchestrator` — the strategy-selection loop of
  `ScrapeManager.run`;
* `applySkipSet` — the skip-set subtraction step of `_run_with_strategy`;
* `collectProductUrls` — the listing-collection loop of
  `_run_with_strategy` with its product-limit check.

Records and product URLs are opaque to the engine, so they are type
parameters throughout.
-/

namespace Loomi

/-! ### AdaptiveRateLimiter (`scraper_engine.py`, lines 47-88) -/

/-- State of `AdaptiveRateLimiter`: the fields set in `__init__`.
The `lock` field is omitted: all mutating methods run under the single
lock, so their effect is the sequential state transformation below. -/
structure RateState where
  min_delay : ℚ
  max_delay : ℚ
  current_delay : ℚ
  consecutive_successes : ℕ
deriving DecidableEq, Repr

/-- The `__init__` constructor: `current_delay` starts at `min_delay`,
the success counter at zero. -/
def initLimiter (mn mx : ℚ) : RateState :=
  { min_delay := mn, max_delay := mx, current_delay := mn,
    consecutive_successes := 0 }

/-- `record_success`: increment the counter; on the 10th consecutive
success multiply the delay by 0.9, floored at `min_delay`, and reset. -/
def record_success (s : RateState) : RateState :=
  let c := s.consecutive_successes + 1
  if 10 ≤ c then
    { s with current_delay := max s.min_delay (s.current_delay * (9 / 10)),
             consecutive_successes := 0 }
  else
    { s with consecutive_successes := c }

/-- `record_rate_limit`: double the delay, capped at `max_delay`, and
reset the success counter. -/
def record_rate_limit (s : RateState) : RateState :=
  { s with current_delay := min s.max_delay (s.current_delay * 2),
           consecutive_successes := 0 }

/-- `record_error`: multiply the delay by 1.2, capped at `max_delay`, and
reset the success counter. -/
def record_error (s : RateState) : RateState :=
  { s with current_delay := min s.max_delay (s.current_delay * (6 / 5)),
           consecutive_successes := 0 }

/-- One call on the governor. -/
inductive RateEvent where
  | success
  | rateLimited
  | error
deriving DecidableEq, Repr

/-- Dispatch one recorded event to the corresponding method. -/
def rateStep (s : RateState) (e : RateEvent) : RateState :=
  match e with
  | .success => record_success s
  | .rateLimited => record_rate_limit s
  | .error => record_error s

/-- Run a sequence of `record_*` calls on a governor state. -/
def runEvents (s : RateState) (es : List RateEvent) : RateState :=
  es.foldl rateStep s

/-- Invariant of governor states reachable from a sensible initialisation:
delays are bounded by the configured window and the window is non-negative. -/
def RateInv (s : RateState) : Prop :=
  0 ≤ s.min_delay ∧ s.min_delay ≤ s.current_delay ∧
    s.current_delay ≤ s.max_delay ∧ s.min_delay ≤ s.max_delay

theorem rateInv_record_success {s : RateState} (h : RateInv s) :
    RateInv (record_success s) := by
  obtain ⟨h0, hlo, hhi, hw⟩ := h
  unfold record_success
  dsimp only
  split
  · refine ⟨h0, le_max_left _ _, max_le hw ?_, hw⟩
    calc s.current_delay * (9 / 10) ≤ s.current_delay * 1 := by
          have hd : 0 ≤ s.current_delay := le_trans h0 hlo
          apply mul_le_mul_of_nonneg_left (by norm_num) hd
      _ = s.current_delay := mul_one _
      _ ≤ s.max_delay := hhi
  · exact ⟨h0, hlo, hhi, hw⟩

theorem rateInv_record_rate_limit {s : RateState} (h : RateInv s) :
    RateInv (record_rate_limit s) := by
  obtain ⟨h0, hlo, hhi, hw⟩ := h
  refine ⟨h0, le_min hw ?_, min_le_left _ _, hw⟩
  have hd : 0 ≤ s.current_delay := le_trans h0 hlo
  calc s.min_delay ≤ s.current_delay := hlo
    _ = s.current_delay * 1 := (mul_one _).symm
    _ ≤ s.current_delay * 2 := by
        apply mul_le_mul_of_nonneg_left (by norm_num) hd

theorem rateInv_record_error {s : RateState} (h : RateInv s) :
    RateInv (record_error s) := by
  obtain ⟨h0, hlo, hhi, hw⟩ := h
  refine ⟨h0, le_min hw ?_, min_le_left _ _, hw⟩
  have hd : 0 ≤ s.current_delay := le_trans h0 hlo
  calc s.min_delay ≤ s.current_delay := hlo
    _ = s.current_delay * 1 := (mul_one _).symm
    _ ≤ s.current_delay * (6 / 5) := by
        apply mul_le_mul_of_nonneg_left (by norm_num) hd

theorem rateInv_step {s : RateState} (h : RateInv s) (e : RateEvent) :
    RateInv (rateStep s e) := by
  cases e
  · exact rateInv_record_success h
  · exact rateInv_record_rate_limit h
  · exact rateInv_record_error h

theorem rateInv_runEvents {s : RateState} (h : RateInv s)
    (es : List RateEvent) : RateInv (runEvents s es) := by
  induction es generalizing s with
  | nil => exact h
  | cons e rest ih => exact ih (rateInv_step h e)

theorem rateInv_init {mn mx : ℚ} (h0 : 0 ≤ mn) (hw : mn ≤ mx) :
    RateInv (initLimiter mn mx) :=
  ⟨h0, le_refl _, hw, hw⟩

theorem rateStep_min_delay (s : RateState) (e : RateEvent) :
    (rateStep s e).min_delay = s.min_delay := by
  cases e
  · unfold rateStep record_success
    dsimp only
    split <;> rfl
  · rfl
  · rfl

theorem rateStep_max_delay (s : RateState) (e : RateEvent) :
    (rateStep s e).max_delay = s.max_delay := by
  cases e
  · unfold rateStep record_success
    dsimp only
    split <;> rfl
  · rfl
  · rfl

theorem runEvents_min_delay (s : RateState) (es : List RateEvent) :
    (runEvents s es).min_delay = s.min_delay := by
  induction es generalizing s with
  | nil => rfl
  | cons e rest ih =>
      show (runEvents (rateStep s e) rest).min_delay = s.min_delay
      rw [ih, rateStep_min_delay]

theorem runEvents_max_delay (s : RateState) (es : List RateEvent) :
    (runEvents s es).max_delay = s.max_delay := by
  induction es generalizing s with
  | nil => rfl
  | cons e rest ih =>
      show (runEvents (rateStep s e) rest).max_delay = s.max_delay
      rw [ih, rateStep_max_delay]

theorem record_rate_limit_nondecreasing {s : RateState} (h : RateInv s) :
    s.current_delay ≤ (record_rate_limit s).current_delay := by
  obtain ⟨h0, hlo, hhi, hw⟩ := h
  have hd : 0 ≤ s.current_delay := le_trans h0 hlo
  refine le_min hhi ?_
  calc s.current_delay = s.current_delay * 1 := (mul_one _).symm
    _ ≤ s.current_delay * 2 := by
        apply mul_le_mul_of_nonneg_left (by norm_num) hd

theorem record_success_nonincreasing {s : RateState} (h : RateInv s) :
    (record_success s).current_delay ≤ s.current_delay := by
  obtain ⟨h0, hlo, hhi, hw⟩ := h
  have hd : 0 ≤ s.current_delay := le_trans h0 hlo
  unfold record_success
  dsimp only
  split
  · refine max_le hlo ?_
    calc s.current_delay * (9 / 10) ≤ s.current_delay * 1 := by
          apply mul_le_mul_of_nonneg_left (by norm_num) hd
      _ = s.current_delay := mul_one _
  · exact le_refl _

/-- C2 counterexample: the claim quantifies over every initialisation with
`current_delay = min_delay` and `min_delay ≤ max_delay` only.  With the
(pathological but accepted) parameters `min_delay = -6`, `max_delay = -1`,
a single `record_rate_limited()` call sets
`current_delay = min(-1, -12) = -12`, leaving the `[min_delay, max_delay]`
window. -/
theorem delay_window_violated_at_negative_min :
    (initLimiter (-6) (-1)).current_delay = (initLimiter (-6) (-1)).min_delay ∧
    (initLimiter (-6) (-1)).min_delay ≤ (initLimiter (-6) (-1)).max_delay ∧
    ¬ ((runEvents (initLimiter (-6) (-1)) [.rateLimited]).min_delay ≤
        (runEvents (initLimiter (-6) (-1)) [.rateLimited]).current_delay) := by
  refine ⟨rfl, by norm_num [initLimiter], ?_⟩
  show ¬ ((-6 : ℚ) ≤ min (-1) (-6 * 2))
  norm_num

/-- C2 (amended): for a governor initialised with
`current_delay = min_delay`, `0 ≤ min_delay` and `min_delay ≤ max_delay`,
every sequence of `record_success` / `record_rate_limited` / `record_error`
calls keeps `current_delay` inside `[min_delay, max_delay]`. -/
theorem delay_stays_in_window (mn mx : ℚ) (h0 : 0 ≤ mn) (hw : mn ≤ mx)
    (es : List RateEvent) :
    mn ≤ (runEvents (initLimiter mn mx) es).current_delay ∧
      (runEvents (initLimiter mn mx) es).current_delay ≤ mx := by
  have hinv := rateInv_runEvents (rateInv_init h0 hw) es
  obtain ⟨-, hlo, hhi, -⟩ := hinv
  rw [runEvents_min_delay] at hlo
  rw [runEvents_max_delay] at hhi
  exact ⟨hlo, hhi⟩

theorem delay_stays_in_window_witness :
    (0 : ℚ) ≤ 1 ∧ (1 : ℚ) ≤ 2 ∧
    (1 ≤ (runEvents (initLimiter 1 2)
        [.success, .rateLimited, .error]).current_delay ∧
      (runEvents (initLimiter 1 2)
        [.success, .rateLimited, .error]).current_delay ≤ 2) :=
  ⟨by norm_num, by norm_num,
    delay_stays_in_window 1 2 (by norm_num) (by norm_num)
      [.success, .rateLimited, .error]⟩

/-- C7 counterexample: the initial state with `min_delay = -6`,
`max_delay = -1` is reachable (empty call sequence), yet
`record_rate_limited()` strictly lowers `current_delay` there
(`min(-1, -12) = -12 < -6`), so the slowdown is not monotone from every
reachable state of an arbitrarily initialised governor. -/
theorem rate_limited_not_monotone_at_negative_min :
    ¬ ((runEvents (initLimiter (-6) (-1)) []).current_delay ≤
        (record_rate_limit (runEvents (initLimiter (-6) (-1)) [])).current_delay) := by
  show ¬ ((-6 : ℚ) ≤ min (-1) (-6 * 2))
  norm_num

/-- C7 (amended): from every state reachable from an initialisation with
`0 ≤ min_delay ≤ max_delay`, `record_rate_limited()` never decreases
`current_delay` and `record_success()` never increases it. -/
theorem rate_limited_mono_success_antitone (mn mx : ℚ) (h0 : 0 ≤ mn)
    (hw : mn ≤ mx) (es : List RateEvent) :
    (runEvents (initLimiter mn mx) es).current_delay ≤
      (record_rate_limit (runEvents (initLimiter mn mx) es)).current_delay ∧
    (record_success (runEvents (initLimiter mn mx) es)).current_delay ≤
      (runEvents (initLimiter mn mx) es).current_delay := by
  have hinv := rateInv_runEvents (rateInv_init h0 hw) es
  exact ⟨record_rate_limit_nondecreasing hinv, record_success_nonincreasing hinv⟩

theorem rate_limited_mono_success_antitone_witness :
    (0 : ℚ) ≤ 1 ∧ (1 : ℚ) ≤ 2 ∧
    ((runEvents (initLimiter 1 2) [.rateLimited]).current_delay ≤
      (record_rate_limit (runEvents (initLimiter 1 2) [.rateLimited])).current_delay ∧
    (record_success (runEvents (initLimiter 1 2) [.rateLimited])).current_delay ≤
      (runEvents (initLimiter 1 2) [.rateLimited]).current_delay) :=
  ⟨by norm_num, by norm_num,
    rate_limited_mono_success_antitone 1 2 (by norm_num) (by norm_num) [.rateLimited]⟩

/-! ### EnvironmentProbe (`scraper_engine.py`, lines 95-152) -/

/-- Environment facts read by `EnvironmentProbe`: whether `REPL_ID` is set
(`is_replit`), whether `from playwright.sync_api import sync_playwright`
succeeds (`playwright_available`), and whether the launch-and-close attempt
of a headless browser completes without an exception
(`launch_succeeds = false` covers both a failed launch and any exception,
which the probe swallows). -/
structure EnvCaps where
  repl_id : Bool
  playwright_installed : Bool
  launch_succeeds : Bool
deriving DecidableEq, Repr

/-- The `browser_available` property, lines 118-136: first component is the
returned boolean, second records whether the real launch attempt inside the
`try` block was performed.  The `except` branch returns `false` rather than
propagating, which is the `(env.launch_succeeds, true)` case with
`launch_succeeds = false`. -/
def browser_available (env : EnvCaps) : Bool × Bool :=
  if env.playwright_installed = false then (false, false)
  else if env.repl_id = true then (false, false)
  else (env.launch_succeeds, true)

/-- C8: whenever the probe is sandboxed (`REPL_ID` set) or the automation
engine is not importable, `browser_available` is `false` and no launch
attempt is made; and a failed or throwing launch attempt also degrades to
`false` (the probe, a total function here, never raises). -/
theorem browser_available_gates_launch (env : EnvCaps) :
    ((env.repl_id = true ∨ env.playwright_installed = false) →
        browser_available env = (false, false)) ∧
      (env.launch_succeeds = false → (browser_available env).1 = false) := by
  obtain ⟨r, p, l⟩ := env
  cases r <;> cases p <;> cases l <;> decide

theorem browser_available_gates_launch_witness :
    browser_available ⟨true, true, true⟩ = (false, false) :=
  (browser_available_gates_launch ⟨true, true, true⟩).1 (Or.inl rfl)

/-! ### Fetch strategies (`scraper_engine.py`, lines 199-305 and 312-415)

`scrape_product` of each strategy is driven by one abstract network outcome
per attempt.  The outcomes partition the branches of the source:
`success` is a response passing `raise_for_status` (its body given to the
extraction callback), `rateLimited` is status 429, `serverError` a 5xx
`HTTPStatusError`, `clientError` any other `HTTPStatusError`, `timeout` an
`httpx.TimeoutException` and `otherError` any other exception.  The model
returns the extracted records, the ordered trace of rate-governor calls,
and a flag that is set exactly when the post-extraction `wait()` call site
(line 273 for requests, line 403 for playwright) fires. -/

/-- One call on the shared rate governor, as seen by a strategy. -/
inductive GovCall where
  | recordSuccess
  | recordRateLimit
  | recordError
  | wait
deriving DecidableEq, Repr

/-- Outcome of one `client.get` attempt inside
`RequestsStrategy.scrape_product`. -/
inductive AttemptOutcome where
  | success (html : String)
  | rateLimited
  | serverError
  | clientError
  | timeout
  | otherError
deriving DecidableEq, Repr

/-- Result of a `scrape_product` call: extracted records, governor-call
trace, and whether the post-extraction politeness `wait()` fired. -/
structure FetchOutput (Rec : Type) where
  records : List Rec
  trace : List GovCall
  post_extract_wait : Bool
deriving DecidableEq, Repr

/-- RequestsStrategy.scrape_product, lines 245-300.  The attempt list
carries one outcome per loop iteration (`max_retries = 3` in the source,
so a real run passes a list of length 3); `rest.isEmpty` encodes
`attempt = max_retries - 1`.  On 429 the governor records and waits, then
the loop retries or gives up; on 5xx and timeout it retries (the 5xx
backoff `time.sleep` is not a governor call) or, for a final 5xx, records
an error; a successful response records a success, extracts, and waits
only when records were produced. -/
def requests_scrape_product {Rec : Type} (extract : String → List Rec) :
    List AttemptOutcome → List GovCall → FetchOutput Rec
  | [], tr => ⟨[], tr, false⟩
  | .success html :: _, tr =>
      if (extract html).isEmpty then
        ⟨extract html, tr ++ [.recordSuccess], false⟩
      else
        ⟨extract html, tr ++ [.recordSuccess, .wait], true⟩
  | .rateLimited :: rest, tr =>
      if rest.isEmpty then ⟨[], tr ++ [.recordRateLimit, .wait], false⟩
      else requests_scrape_product extract rest (tr ++ [.recordRateLimit, .wait])
  | .serverError :: rest, tr =>
      if rest.isEmpty then ⟨[], tr ++ [.recordError], false⟩
      else requests_scrape_product extract rest tr
  | .clientError :: _, tr => ⟨[], tr ++ [.recordError], false⟩
  | .timeout :: rest, tr =>
      if rest.isEmpty then ⟨[], tr, false⟩
      else requests_scrape_product extract rest tr
  | .otherError :: _, tr => ⟨[], tr ++ [.recordError], false⟩

/-- PlaywrightStrategy.scrape_product, lines 388-409: a successful
navigation (`some html`) extracts and then unconditionally calls
`rate_limiter.wait()`; any exception returns the empty list with no
governor interaction. -/
def playwright_scrape_product {Rec : Type} (extract : String → List Rec)
    (nav : Option String) : FetchOutput Rec :=
  match nav with
  | some html => ⟨extract html, [.wait], true⟩
  | none => ⟨[], [], false⟩

/-- C3 counterexample: a successful BrowserRendered fetch whose extraction
yields no records still performs the governor `wait()` before returning
(`PlaywrightStrategy.scrape_product` calls `wait()` unconditionally at
line 403), contradicting the claim that an unproductive fetch does not
force that extra wait in both strategies. -/
theorem playwright_waits_even_without_records :
    (playwright_scrape_product (fun _ => ([] : List ℕ)) (some "h")).records = [] ∧
    (playwright_scrape_product (fun _ => ([] : List ℕ)) (some "h")).post_extract_wait = true ∧
    GovCall.wait ∈ (playwright_scrape_product (fun _ => ([] : List ℕ)) (some "h")).trace := by
  decide

/-- C3 (amended): for DirectHTTP, `fetch_and_extract` performs the
post-extraction `wait()` exactly when the returned record list is
non-empty; for BrowserRendered, every successful fetch performs that wait
regardless of whether extraction yielded records, and only a failed
browser fetch skips it. -/
theorem post_extract_wait_policy :
    (∀ (Rec : Type) (extract : String → List Rec) (attempts : List AttemptOutcome)
        (tr : List GovCall),
        (requests_scrape_product extract attempts tr).post_extract_wait =
          !(requests_scrape_product extract attempts tr).records.isEmpty) ∧
    (∀ (Rec : Type) (extract : String → List Rec) (html : String),
        (playwright_scrape_product extract (some html)).post_extract_wait = true) ∧
    (∀ (Rec : Type) (extract : String → List Rec),
        (playwright_scrape_product extract none).post_extract_wait = false) := by
  refine ⟨?_, fun _ _ _ => rfl, fun _ _ => rfl⟩
  intro Rec extract attempts
  induction attempts with
  | nil => intro tr; rfl
  | cons o rest ih =>
      intro tr
      cases o with
      | success html =>
          simp only [requests_scrape_product]
          split
          · rename_i h
            rw [h]
            rfl
          · rename_i h
            rw [Bool.not_eq_true] at h
            rw [h]
            rfl
      | rateLimited =>
          simp only [requests_scrape_product]
          split
          · rfl
          · exact ih _
      | serverError =>
          simp only [requests_scrape_product]
          split
          · rfl
          · exact ih _
      | clientError => rfl
      | timeout =>
          simp only [requests_scrape_product]
          split
          · rfl
          · exact ih _
      | otherError => rfl

/-! ### ScrapeManager worker and checkpointing
(`scraper_engine.py`, lines 460-631) -/

/-- Outcome of `strategy.scrape_product` for one dispatched URL as seen by
the worker `_scrape_single_product`: a returned record list, or an
exception escaping the strategy call. -/
inductive WorkerOutcome (Rec : Type) where
  | ok (recs : List Rec)
  | exn
deriving DecidableEq, Repr

/-- The manager fields touched by `_scrape_single_product` and
`_incremental_save`: `all_records` (set in `__init__` to `[]` and only
reassigned by `run` after a strategy finishes), the two counters, the
`incremental` flag and `save_interval` from the constructor, and the
contents of the `.partial` checkpoint side-file (`none` = never written). -/
structure MgrState (Rec : Type) where
  all_records : List Rec
  products_processed : ℕ
  failed_products : ℕ
  incremental : Bool
  save_interval : ℕ
  checkpoint : Option (List Rec)
deriving DecidableEq, Repr

/-- `_incremental_save`, lines 612-631: returns immediately when
`self.all_records` is empty, otherwise rewrites the `.partial` side-file
with (the standardized form of) `self.all_records`.  Standardization is a
per-record reformatting from `main.py` and is elided here: the checkpoint
is modelled as the list of records it was derived from. -/
def incremental_save {Rec : Type} (s : MgrState Rec) : MgrState Rec :=
  if s.all_records.isEmpty then s
  else { s with checkpoint := some s.all_records }

/-- `_scrape_single_product`, lines 579-610: a non-empty record list
increments `_products_processed` (and, when `incremental` is set and the
incremented count is a multiple of `save_interval`, calls
`_incremental_save`); an empty list or an exception increments
`failed_products` and yields `[]`.  The multiple-of-interval check reads
the counter after the increment, hence `products_processed + 1` in the
condition. -/
def scrape_single_product {Rec : Type} (o : WorkerOutcome Rec)
    (s : MgrState Rec) : List Rec × MgrState Rec :=
  match o with
  | .ok recs =>
      if recs.isEmpty then
        ([], { s with failed_products := s.failed_products + 1 })
      else if s.incremental = true ∧ (s.products_processed + 1) % s.save_interval = 0 then
        (recs, incremental_save { s with products_processed := s.products_processed + 1 })
      else
        (recs, { s with products_processed := s.products_processed + 1 })
  | .exn => ([], { s with failed_products := s.failed_products + 1 })

/-- The dispatch loop of `_run_with_strategy`, lines 664-684: every
dispatched URL's worker result is appended to the local `records` list
(`records.extend(result)`), threading the shared manager state. -/
def dispatchAll {Rec : Type} :
    List (WorkerOutcome Rec) → List Rec → MgrState Rec → List Rec × MgrState Rec
  | [], acc, s => (acc, s)
  | o :: rest, acc, s =>
      dispatchAll rest (acc ++ (scrape_single_product o s).1)
        (scrape_single_product o s).2

theorem incremental_save_products_processed {Rec : Type} (s : MgrState Rec) :
    (incremental_save s).products_processed = s.products_processed := by
  unfold incremental_save
  split <;> rfl

theorem incremental_save_failed_products {Rec : Type} (s : MgrState Rec) :
    (incremental_save s).failed_products = s.failed_products := by
  unfold incremental_save
  split <;> rfl

theorem scrape_single_product_counters {Rec : Type} (o : WorkerOutcome Rec)
    (s : MgrState Rec) :
    ((scrape_single_product o s).2.products_processed = s.products_processed + 1 ∧
      (scrape_single_product o s).2.failed_products = s.failed_products) ∨
    ((scrape_single_product o s).2.products_processed = s.products_processed ∧
      (scrape_single_product o s).2.failed_products = s.failed_products + 1) := by
  cases o with
  | ok recs =>
      simp only [scrape_single_product]
      split
      · exact Or.inr ⟨rfl, rfl⟩
      · split
        · exact Or.inl ⟨by rw [incremental_save_products_processed],
            by rw [incremental_save_failed_products]⟩
        · exact Or.inl ⟨rfl, rfl⟩
  | exn => exact Or.inr ⟨rfl, rfl⟩

theorem dispatchAll_counters {Rec : Type} (os : List (WorkerOutcome Rec)) :
    ∀ (acc : List Rec) (s : MgrState Rec),
      (dispatchAll os acc s).2.products_processed +
          (dispatchAll os acc s).2.failed_products =
        s.products_processed + s.failed_products + os.length := by
  induction os with
  | nil => intro acc s; simp [dispatchAll]
  | cons o rest ih =>
      intro acc s
      simp only [dispatchAll]
      rw [ih]
      rcases scrape_single_product_counters o s with ⟨h1, h2⟩ | ⟨h1, h2⟩ <;>
        rw [h1, h2] <;> simp <;> omega

/-- C10: each worker call returns normally and takes exactly one of two
outcomes — the processed counter or the failed counter is incremented by
one — and therefore, after dispatch of any batch, processed plus failed
grew by exactly the number of dispatched URLs. -/
theorem worker_outcome_partition :
    (∀ (Rec : Type) (o : WorkerOutcome Rec) (s : MgrState Rec),
      ((scrape_single_product o s).2.products_processed = s.products_processed + 1 ∧
        (scrape_single_product o s).2.failed_products = s.failed_products) ∨
      ((scrape_single_product o s).2.products_processed = s.products_processed ∧
        (scrape_single_product o s).2.failed_products = s.failed_products + 1)) ∧
    (∀ (Rec : Type) (os : List (WorkerOutcome Rec)) (acc : List Rec) (s : MgrState Rec),
      (dispatchAll os acc s).2.products_processed +
          (dispatchAll os acc s).2.failed_products =
        s.products_processed + s.failed_products + os.length) :=
  ⟨fun _ o s => scrape_single_product_counters o s,
    fun _ os acc s => dispatchAll_counters os acc s⟩

/-- The manager state at the start of a fresh run with the default
configuration (`incremental = True`, `save_interval = 25`): no records,
zero counters, no checkpoint file. -/
def freshMgrState : MgrState ℕ :=
  { all_records := [], products_processed := 0, failed_products := 0,
    incremental := true, save_interval := 25, checkpoint := none }

set_option maxRecDepth 4000 in
/-- C1 (code bug evaluation): dispatching 50 products that each
successfully yield one record, with `save_interval = 25`, crosses the
checkpoint trigger twice — yet no checkpoint is ever written.
`_incremental_save` snapshots `self.all_records`, which `run` assigns only
after `_run_with_strategy` returns (worker results accumulate in the local
`records` list instead), so during dispatch `all_records` is empty and the
`if not self.all_records: return` guard makes every checkpoint write a
no-op. -/
theorem no_checkpoint_after_fifty_products :
    (dispatchAll (List.replicate 50 (WorkerOutcome.ok [1])) [] freshMgrState).2.checkpoint
        = none ∧
    (dispatchAll (List.replicate 50 (WorkerOutcome.ok [1])) [] freshMgrState).2.products_processed
        = 50 ∧
    (dispatchAll (List.replicate 50 (WorkerOutcome.ok [1])) [] freshMgrState).1.length
        = 50 := by
  decide

/-! ### ScrapeManager strategy selection (`scraper_engine.py`, lines 528-577) -/

/-- Outcome of one full `_run_with_strategy` pipeline for a viable
strategy: a returned record list, or an exception escaping the strategy
(caught by the `except` branch of the loop, which logs and continues). -/
inductive StrategyResult (Rec : Type) where
  | ok (recs : List Rec)
  | exn
deriving DecidableEq, Repr

/-- What `run` leaves behind: `strategy_used` (index of the winning
strategy in the viable list), the final `all_records`, and how many viable
strategies were attempted before the loop stopped. -/
structure RunResult (Rec : Type) where
  strategy_used : Option ℕ
  all_records : List Rec
  attempted : ℕ
deriving DecidableEq, Repr

/-- The strategy loop of `run`, lines 551-570, over the viable strategies
starting at index `i`: a non-empty result records the strategy and breaks;
an empty result or an exception advances to the next strategy.  An empty
viable list (lines 544-546) yields no winner, no records and zero
attempts. -/
def runLoopFrom {Rec : Type} (i : ℕ) : List (StrategyResult Rec) → RunResult Rec
  | [] => { strategy_used := none, all_records := [], attempted := 0 }
  | .ok recs :: rest =>
      if recs.isEmpty then
        { strategy_used := (runLoopFrom (i + 1) rest).strategy_used,
          all_records := (runLoopFrom (i + 1) rest).all_records,
          attempted := (runLoopFrom (i + 1) rest).attempted + 1 }
      else
        { strategy_used := some i, all_records := recs, attempted := 1 }
  | .exn :: rest =>
      { strategy_used := (runLoopFrom (i + 1) rest).strategy_used,
        all_records := (runLoopFrom (i + 1) rest).all_records,
        attempted := (runLoopFrom (i + 1) rest).attempted + 1 }

/-- `run` applied to the pipeline results of the viable strategies in
priority order. -/
def runOrchestrator {Rec : Type} (results : List (StrategyResult Rec)) :
    RunResult Rec :=
  runLoopFrom 0 results

/-- A strategy attempt that contributes nothing: an empty record list or
an escaped exception. -/
def yieldsNoRecords {Rec : Type} : StrategyResult Rec → Bool
  | .ok recs => recs.isEmpty
  | .exn => true

theorem runLoopFrom_first_win {Rec : Type} (recs : List Rec)
    (hne : recs.isEmpty = false) (pre : List (StrategyResult Rec)) :
    ∀ (rest : List (StrategyResult Rec)) (i : ℕ),
      (∀ r ∈ pre, yieldsNoRecords r = true) →
      runLoopFrom i (pre ++ .ok recs :: rest) =
        { strategy_used := some (i + pre.length), all_records := recs,
          attempted := pre.length + 1 } := by
  induction pre with
  | nil =>
      intro rest i _
      simp only [List.nil_append, runLoopFrom, hne]
      simp
  | cons r pre ih =>
      intro rest i hpre
      have hr : yieldsNoRecords r = true := hpre r (List.mem_cons_self r pre)
      have hpre2 : ∀ x ∈ pre, yieldsNoRecords x = true :=
        fun x hx => hpre x (List.mem_cons_of_mem r hx)
      cases r with
      | ok recs0 =>
          have h0 : recs0.isEmpty = true := hr
          simp only [List.cons_append, runLoopFrom, h0, if_true,
            List.append_eq_has_append]
          rw [ih rest (i + 1) hpre2,
            show i + 1 + pre.length = i + (pre.length + 1) from by omega]
          rfl
      | exn =>
          simp only [List.cons_append, runLoopFrom, List.append_eq_has_append]
          rw [ih rest (i + 1) hpre2,
            show i + 1 + pre.length = i + (pre.length + 1) from by omega]
          rfl

/-- C4: if the strategies before some viable strategy all contribute
nothing (empty results or exceptions) and that strategy's pipeline yields
a non-empty record list, then it is recorded as the winning strategy and
the loop attempts no strategy after it (`attempted = pre.length + 1`,
whatever follows in the viable list). -/
theorem first_productive_strategy_wins {Rec : Type}
    (pre rest : List (StrategyResult Rec)) (recs : List Rec)
    (hpre : ∀ r ∈ pre, yieldsNoRecords r = true)
    (hne : recs.isEmpty = false) :
    runOrchestrator (pre ++ .ok recs :: rest) =
      { strategy_used := some pre.length, all_records := recs,
        attempted := pre.length + 1 } := by
  have h := runLoopFrom_first_win recs hne pre rest 0 hpre
  simpa [runOrchestrator] using h

theorem first_productive_strategy_wins_witness :
    (∀ r ∈ ([.exn, .ok []] : List (StrategyResult ℕ)), yieldsNoRecords r = true) ∧
    ([7] : List ℕ).isEmpty = false ∧
    runOrchestrator (([.exn, .ok []] : List (StrategyResult ℕ)) ++ .ok [7] :: [.ok [9]]) =
      { strategy_used := some 2, all_records := [7], attempted := 3 } :=
  ⟨by decide, by decide,
    first_productive_strategy_wins [.exn, .ok []] [.ok [9]] [7] (by decide) (by decide)⟩

theorem runLoopFrom_all_empty {Rec : Type} (results : List (StrategyResult Rec)) :
    ∀ i : ℕ, (∀ r ∈ results, yieldsNoRecords r = true) →
      runLoopFrom i results =
        { strategy_used := none, all_records := [], attempted := results.length } := by
  induction results with
  | nil => intro i _; rfl
  | cons r rest ih =>
      intro i h
      have hr : yieldsNoRecords r = true := h r (List.mem_cons_self r rest)
      have h2 : ∀ x ∈ rest, yieldsNoRecords x = true :=
        fun x hx => h x (List.mem_cons_of_mem r hx)
      cases r with
      | ok recs0 =>
          have h0 : recs0.isEmpty = true := hr
          simp only [runLoopFrom, h0, if_true]
          rw [ih (i + 1) h2]
          rfl
      | exn =>
          simp only [runLoopFrom]
          rw [ih (i + 1) h2]
          rfl

/-- C5: when every viable strategy contributes nothing — every pipeline
result is an empty list or an exception, including the degenerate case of
no viable strategy at all — the run terminates normally (the loop is a
total function) with no winning strategy and an empty record list, after
attempting every viable strategy. -/
theorem all_strategies_empty_yields_no_results {Rec : Type}
    (results : List (StrategyResult Rec))
    (h : ∀ r ∈ results, yieldsNoRecords r = true) :
    runOrchestrator results =
      { strategy_used := none, all_records := [], attempted := results.length } :=
  runLoopFrom_all_empty results 0 h

theorem all_strategies_empty_yields_no_results_witness :
    (∀ r ∈ ([.ok [], .exn, .ok []] : List (StrategyResult ℕ)), yieldsNoRecords r = true) ∧
    runOrchestrator ([.ok [], .exn, .ok []] : List (StrategyResult ℕ)) =
      { strategy_used := none, all_records := [], attempted := 3 } :=
  ⟨by decide, all_strategies_empty_yields_no_results [.ok [], .exn, .ok []] (by decide)⟩

/-! ### Skip-set subtraction and URL collection
(`scraper_engine.py`, lines 633-661) -/

/-- The skip-set step of `_run_with_strategy`, lines 648-653: when
`skip_existing` is set and the loaded skip-set is non-empty (Python set
truthiness), the candidate set is replaced by its difference with the
skip-set and `skipped_products` becomes the size drop; otherwise the
candidates pass through and `skipped_products` keeps its initial zero. -/
def applySkipSet {α : Type} [DecidableEq α] (skip_existing : Bool)
    (existing collected : Finset α) : Finset α × ℕ :=
  if skip_existing = true ∧ existing ≠ ∅ then
    (collected \ existing, collected.card - (collected \ existing).card)
  else
    (collected, 0)

/-- C6: with skip-existing enabled, a skip-set of `N` URLs and `M`
collected candidates of which `K` lie in the skip-set, exactly `M - K`
URLs remain for dispatch and the skipped-product count is `K`. -/
theorem skip_set_subtraction {α : Type} [DecidableEq α]
    (existing collected : Finset α) (N M K : ℕ)
    (hN : existing.card = N) (hM : collected.card = M)
    (hK : (collected ∩ existing).card = K) :
    (applySkipSet true existing collected).1.card = M - K ∧
      (applySkipSet true existing collected).2 = K := by
  have hsd : (collected \ existing).card + (collected ∩ existing).card =
      collected.card := Finset.card_sdiff_add_card_inter collected existing
  by_cases he : existing = ∅
  · subst he
    rw [Finset.inter_empty, Finset.card_empty] at hK
    unfold applySkipSet
    rw [if_neg (by simp)]
    refine ⟨?_, ?_⟩
    · show collected.card = M - K
      omega
    · show 0 = K
      omega
  · unfold applySkipSet
    rw [if_pos ⟨rfl, he⟩]
    refine ⟨?_, ?_⟩
    · show (collected \ existing).card = M - K
      omega
    · show collected.card - (collected \ existing).card = K
      omega

theorem skip_set_subtraction_witness :
    ({0, 1} : Finset ℕ).card = 2 ∧
    ({1, 2, 3} : Finset ℕ).card = 3 ∧
    (({1, 2, 3} : Finset ℕ) ∩ {0, 1}).card = 1 ∧
    ((applySkipSet true ({0, 1} : Finset ℕ) {1, 2, 3}).1.card = 3 - 1 ∧
      (applySkipSet true ({0, 1} : Finset ℕ) {1, 2, 3}).2 = 1) :=
  ⟨by decide, by decide, by decide,
    skip_set_subtraction {0, 1} {1, 2, 3} 2 3 1 (by decide) (by decide) (by decide)⟩

/-- The listing-collection loop of `_run_with_strategy`, lines 636-646:
each listing page's URL set is merged into the accumulator, and the loop
breaks once the accumulated total has reached 100 — checked only after the
merge. -/
def collectProductUrls {α : Type} [DecidableEq α] :
    List (Finset α) → Finset α → Finset α
  | [], acc => acc
  | l :: rest, acc =>
      if 100 ≤ (acc ∪ l).card then acc ∪ l
      else collectProductUrls rest (acc ∪ l)

/-- C9 counterexample: a single listing page that returns 150 distinct
product URLs yields a collected set of 150 URLs — the limit check at line
644 runs only after the whole page's URLs were merged, so the collected
set is not capped at 100. -/
theorem collected_urls_exceed_cap :
    100 < (collectProductUrls [Finset.range 150] (∅ : Finset ℕ)).card := by
  have h : (collectProductUrls [Finset.range 150] (∅ : Finset ℕ)) =
      Finset.range 150 := by
    simp [collectProductUrls]
  rw [h, Finset.card_range]
  norm_num

/-- C9 (amended): the collection loop stops processing further listing
pages once the accumulated set has reached 100 URLs, so a run is bounded —
but only softly: starting below 100, the collected set stays below
`100 + L` where `L` bounds the URL count of a single listing page; it may
exceed 100 itself by up to the size of the last merged page. -/
theorem collected_urls_soft_cap {α : Type} [DecidableEq α] (L : ℕ)
    (listings : List (Finset α)) :
    ∀ acc : Finset α, acc.card < 100 → (∀ l ∈ listings, l.card ≤ L) →
      (collectProductUrls listings acc).card < 100 + L := by
  induction listings with
  | nil =>
      intro acc hacc _
      exact lt_of_lt_of_le hacc (Nat.le_add_right 100 L)
  | cons l rest ih =>
      intro acc hacc hL
      have hl : l.card ≤ L := hL l (List.mem_cons_self l rest)
      have hcup : (acc ∪ l).card ≤ acc.card + l.card := Finset.card_union_le acc l
      simp only [collectProductUrls]
      split
      · omega
      · rename_i hlt
        exact ih (acc ∪ l) (by omega)
          (fun x hx => hL x (List.mem_cons_of_mem l hx))

theorem collected_urls_soft_cap_witness :
    ((∅ : Finset ℕ).card < 100 ∧
      ∀ l ∈ [Finset.range 120], l.card ≤ 120) ∧
    (collectProductUrls [Finset.range 120] (∅ : Finset ℕ)).card < 100 + 120 :=
  ⟨⟨by decide, by
      intro l hl
      rw [List.mem_singleton] at hl
      rw [hl, Finset.card_range]⟩,
    collected_urls_soft_cap 120 [Finset.range 120] ∅ (by decide) (by
      intro l hl
      rw [List.mem_singleton] at hl
      rw [hl, Finset.card_range])⟩

end Loomi
